import Mathlib

/-!
Verification development for the AwesomeTTS website relay handler, the
function voicetext of relays/__init__.py.

The handler is embedded shallowly:

* Python byte strings are modelled as Lean `String` (the concrete inputs used
  below are ASCII, where character count and byte count coincide);
* the per-level accounting dict `lookup`, mapping a remote address to an info
  dict carrying a creation time and a call counter, is modelled as an
  association list `List (String × CallRecord)`; Python dicts have unique
  keys, and every observation the code makes of a lookup (indexing by
  address, its size, deletion during the expiry sweep) is order-independent,
  so an association list with first-match lookup is a faithful model;
* wall-clock time, in the code the integer seconds of time(), is an `Int`;
* the single outbound urlopen call is modelled by passing its outcome — a
  response (status code, content type, body) or a raised exception carrying a
  detail string — as an explicit `UpstreamResult` argument;
* calling start_response(status, headers) and returning a body is modelled as
  returning a `Response` record.
-/

/-- One entry of a level accounting dict: the info dict with fields
`created` (time of first call in the current window) and `calls`. -/
structure CallRecord where
  created : Int
  calls : Nat
deriving DecidableEq, Repr

/-- The LimitLevel namedtuple: fields `within`, `max_single`, `max_total`
and the accounting dict `lookup`. -/
structure LimitLevel where
  within : Int
  max_single : Nat
  max_total : Nat
  lookup : List (String × CallRecord)
deriving DecidableEq, Repr

/-- The configured level list; both levels start with an empty dict. -/
def limit_levels : List LimitLevel :=
  [⟨60, 25, 5, []⟩, ⟨86400, 500, 100, []⟩]

/-- Dict lookup by remote address, returning the info record when present. -/
def findRec : List (String × CallRecord) → String → Option CallRecord
  | [], _ => none
  | p :: rest, addr => if p.1 == addr then some p.2 else findRec rest addr

/-- The expiry sweep for one level: delete every entry whose creation time is
strictly before now minus the window length. -/
def sweep (now : Int) (lv : LimitLevel) : LimitLevel :=
  { lv with lookup := lv.lookup.filter (fun p => ! decide (p.2.created < now - lv.within)) }

/-- The two rejection branches of the check loop. -/
inductive CheckFail where
  | capacity
  | tooMany
deriving DecidableEq, Repr

/-- The check for one level: a caller with no record is rejected when the dict
already holds max_total entries; a known caller is rejected when its call
counter has reached max_single. -/
def checkLevel (lv : LimitLevel) (addr : String) : Option CheckFail :=
  match findRec lv.lookup addr with
  | none => if lv.lookup.length ≥ lv.max_total then some .capacity else none
  | some info => if info.calls ≥ lv.max_single then some .tooMany else none

/-- The check loop over all levels: the first failing level wins. -/
def checkLevels (levels : List LimitLevel) (addr : String) : Option CheckFail :=
  match levels with
  | [] => none
  | lv :: rest =>
    match checkLevel lv addr with
    | some f => some f
    | none => checkLevels rest addr

/-- The increment performed on the entry of a known caller. -/
def bump (addr : String) (p : String × CallRecord) : String × CallRecord :=
  if p.1 == addr then (p.1, ⟨p.2.created, p.2.calls + 1⟩) else p

/-- The commit for one level: create a fresh record with counter 1 when the
caller has no record, otherwise increment its call counter. -/
def commitLevel (now : Int) (addr : String) (lv : LimitLevel) : LimitLevel :=
  match findRec lv.lookup addr with
  | none => { lv with lookup := lv.lookup ++ [(addr, ⟨now, 1⟩)] }
  | some _ => { lv with lookup := lv.lookup.map (bump addr) }

/-- Result of the rate-limiting critical section: either admitted with the
committed state, or rejected with the post-sweep state. -/
inductive AdmitResult where
  | admitted (levels : List LimitLevel)
  | rejected (fail : CheckFail) (levels : List LimitLevel)
deriving DecidableEq, Repr

/-- The whole critical section of the handler: sweep every level, check every
level, and commit to every level only when no level rejected. -/
def admitReq (now : Int) (addr : String) (levels : List LimitLevel) : AdmitResult :=
  match checkLevels (levels.map (sweep now)) addr with
  | some f => .rejected f (levels.map (sweep now))
  | none => .admitted ((levels.map (sweep now)).map (commitLevel now addr))

/-- The Python startswith test: `pre` is an initial run of `s`. -/
def startsWithB (pre s : String) : Bool :=
  pre.toList.isPrefixOf s.toList

/-- Whether `needle` occurs as a contiguous run somewhere in `hay`. -/
def substrAux (needle : List Char) : List Char → Bool
  | [] => needle.isEmpty
  | c :: rest => needle.isPrefixOf (c :: rest) || substrAux needle rest

/-- Substring containment, the Python membership test on strings. -/
def substrB (needle hay : String) : Bool :=
  substrAux needle.toList hay.toList

/-- Python count of a single character in a string. -/
def countChar (s : String) (c : Char) : Nat :=
  s.toList.count c

/-- The structural query-string check of the handler, exactly as written
(Python truthiness of the string is non-emptiness). -/
def queryOk (data : String) : Bool :=
  (! (data == "")) && decide (data.length < 1000) && decide (countChar data '&' > 4) &&
  decide (countChar data '=' < 8) && substrB "format=" data &&
  (! substrB "format=wav" data) &&
  substrB "pitch=" data && substrB "speaker=" data && substrB "speed=" data &&
  substrB "text=" data && substrB "volume=" data

/-- An inbound WSGI request, restricted to the environ keys the handler
reads. A missing key is the empty string (the environ.get defaults used by
the code are falsy). -/
structure Request where
  remote_addr : String
  http_user_agent : String
  request_method : String
  query_string : String
deriving DecidableEq, Repr

/-- What urlopen produced on success: the status code, the content type
reported by the response info, and the body bytes read from the response. -/
structure UpstreamResponse where
  code : Int
  mime : String
  body : String
deriving DecidableEq, Repr

/-- Outcome of the single outbound call: a response, or a raised exception
(timeout, connection error, ...) carrying its detail string. -/
inductive UpstreamResult where
  | ok (resp : UpstreamResponse)
  | failed (detail : String)
deriving DecidableEq, Repr

/-- A WSGI response: the status line passed to start_response, the header
list, and the returned body payload. -/
structure Response where
  status : String
  headers : List (String × String)
  body : List String
deriving DecidableEq, Repr

def CODE_200 : String := "200 OK"
def CODE_400 : String := "400 Bad Request"
def CODE_403 : String := "403 Forbidden"
def CODE_405 : String := "405 Method Not Allowed"
def CODE_429 : String := "429 Too Many Requests"
def CODE_502 : String := "502 Bad Gateway"
def CODE_503 : String := "503 Service Unavailable"

def HEADERS_JSON : List (String × String) := [("Content-Type", "application/json")]

/-- The list-of-one-string payload produced by json.dumps of a dict with the
single key message, with compact separators. -/
def getMessage (msg : String) : List String :=
  ["\x7b\"message\":\"" ++ msg ++ "\"\x7d"]

def MSG_CAPACITY : List String := getMessage "This service is over capacity"
def MSG_DENIED : List String := getMessage "You may not call this endpoint directly"
def MSG_TOO_MANY : List String := getMessage "You have made too many calls to the service"
def MSG_UNACCEPTABLE : List String := getMessage "Your request is unacceptable"
def MSG_UPSTREAM : List String := getMessage "Cannot communicate with upstream service"

/-- The response produced from the outcome of the upstream call. A raised
exception, a non-200 status, or a content type not starting with audio/ all
fall into the catch-all branch returning the generic 502 message; a 200
audio response is relayed with its own content type and body. -/
def processUpstream (u : UpstreamResult) : Response :=
  match u with
  | .failed _ => ⟨CODE_502, HEADERS_JSON, MSG_UPSTREAM⟩
  | .ok resp =>
    if resp.code ≠ 200 then ⟨CODE_502, HEADERS_JSON, MSG_UPSTREAM⟩
    else if ! startsWithB "audio/" resp.mime then ⟨CODE_502, HEADERS_JSON, MSG_UPSTREAM⟩
    else ⟨CODE_200, [("Content-Type", resp.mime)], [resp.body]⟩

/-- Whether the outcome of the upstream call counts as a failure for the
handler: a raised exception, a non-200 status, or a non-audio content type. -/
def upstreamFailed : UpstreamResult → Bool
  | .failed _ => true
  | .ok resp => decide (resp.code ≠ 200) || ! startsWithB "audio/" resp.mime

/-- The voicetext handler: the four validation gates in source order, then
the rate-limiting critical section, then the upstream call. Returns the
response together with the limit-level state after the request. -/
def voicetext (req : Request) (now : Int) (u : UpstreamResult)
    (levels : List LimitLevel) : Response × List LimitLevel :=
  if req.remote_addr == "" then (⟨CODE_403, HEADERS_JSON, MSG_DENIED⟩, levels)
  else if ! startsWithB "AwesomeTTS/" req.http_user_agent then
    (⟨CODE_403, HEADERS_JSON, MSG_DENIED⟩, levels)
  else if ! (req.request_method == "GET") then
    (⟨CODE_405, HEADERS_JSON, MSG_UNACCEPTABLE⟩, levels)
  else if ! queryOk req.query_string then
    (⟨CODE_400, HEADERS_JSON, MSG_UNACCEPTABLE⟩, levels)
  else
    match admitReq now req.remote_addr levels with
    | .rejected .capacity ls => (⟨CODE_503, HEADERS_JSON, MSG_CAPACITY⟩, ls)
    | .rejected .tooMany ls => (⟨CODE_429, HEADERS_JSON, MSG_TOO_MANY⟩, ls)
    | .admitted ls => (processUpstream u, ls)

/-- Repeated calls of the handler with the same request, time and upstream
outcome, threading the limit-level state; returns the response of every call
and the final state. -/
def runRelay (req : Request) (now : Int) (u : UpstreamResult) :
    Nat → List LimitLevel → List Response × List LimitLevel
  | 0, ls => ([], ls)
  | n + 1, ls =>
    let r := voicetext req now u ls
    let rest := runRelay req now u n r.2
    (r.1 :: rest.1, rest.2)

/-- A whole sequence of requests (each with its own time and upstream
outcome) run through the handler, returning the final limit-level state. -/
def runSeq : List (Request × Int × UpstreamResult) → List LimitLevel → List LimitLevel
  | [], ls => ls
  | (req, now, u) :: rest, ls => runSeq rest (voicetext req now u ls).2

/-- The state of one level after its sweep at time `now` followed by `k`
commits for the fresh caller `addr`: the swept dict plus one record for
`addr` created at `now` with call counter `k`. -/
def midLevel (now : Int) (addr : String) (k : Nat) (lv : LimitLevel) : LimitLevel :=
  { lv with lookup := (sweep now lv).lookup ++ [(addr, ⟨now, k⟩)] }

/-- The state of all levels after `k` admitted calls of the fresh caller
`addr`, all at time `now`. -/
def midState (now : Int) (addr : String) (k : Nat) (levels : List LimitLevel) : List LimitLevel :=
  levels.map (midLevel now addr k)

/-- The structural query-string checks other than the two involving the
format parameter, exactly as the handler performs them. -/
def otherStructuralOk (data : String) : Bool :=
  (! (data == "")) && decide (data.length < 1000) && decide (countChar data '&' > 4) &&
  decide (countChar data '=' < 8) &&
  substrB "pitch=" data && substrB "speaker=" data && substrB "speed=" data &&
  substrB "text=" data && substrB "volume=" data

/-- Split a character list at every ampersand, the parameter separator of a
query string. -/
def splitAmp : List Char → List (List Char)
  | [] => [[]]
  | c :: rest =>
    let r := splitAmp rest
    if c == '&' then [] :: r
    else
      match r with
      | [] => [[c]]
      | h :: t => (c :: h) :: t

/-- Modelled from the spec: the spec-side reading of the format check, for
the refinement comparison of claim C7 — the query string, split at every
ampersand into parameters, has a parameter named format whose value is not
wav. -/
def specFormatParamOk (data : String) : Bool :=
  (splitAmp data.toList).any
    (fun piece => "format=".toList.isPrefixOf piece && ! (piece == "format=wav".toList))

/-- The capacity invariant of claim C10: no level dict holds more entries
than the max_total cap of its level. -/
def capInv (levels : List LimitLevel) : Prop :=
  ∀ lv ∈ levels, lv.lookup.length ≤ lv.max_total

/-- A well-formed query string used by concrete witnesses. -/
def validQS : String :=
  "format=aac&pitch=100&speaker=hikari&speed=100&text=a&volume=100"

/-- A well-formed request used by concrete witnesses. -/
def validReq : Request :=
  ⟨"1.2.3.4", "AwesomeTTS/1.9.9", "GET", validQS⟩

/-- A successful upstream audio response used by concrete witnesses. -/
def respAudio : UpstreamResponse := ⟨200, "audio/wav", "RIFFdata"⟩

/-- Upstream outcome with a successful audio response, for witnesses. -/
def upAudio : UpstreamResult := .ok respAudio

/-- Upstream outcome where the outbound call raised a timeout exception,
for witnesses. -/
def upTimeout : UpstreamResult := .failed "timed out reaching api.voicetext.jp"

/-- Level configuration for the C1 witness: per-caller caps one and two,
both dicts empty. -/
def c1Levels : List LimitLevel := [⟨60, 1, 5, []⟩, ⟨86400, 2, 100, []⟩]

/-- Level configuration for the C2 witness: both of the two caller slots
already taken by other addresses, with differing call counts. -/
def c2Levels : List LimitLevel :=
  [⟨60, 25, 2, [("10.0.0.1", ⟨0, 3⟩), ("10.0.0.2", ⟨0, 7⟩)]⟩]

/-- Level configuration for the C3 witness: the witness caller has already
exhausted its per-caller cap of one. -/
def c3Levels : List LimitLevel := [⟨60, 1, 5, [("1.2.3.4", ⟨0, 1⟩)]⟩]

/-- The committed production state after the first call of the witness
caller, used by the C5 and C6 witnesses. -/
def committedLevels : List LimitLevel :=
  [⟨60, 25, 5, [("1.2.3.4", ⟨0, 1⟩)]⟩, ⟨86400, 500, 100, [("1.2.3.4", ⟨0, 1⟩)]⟩]

/-- The C7 counterexample query string: every other structural check passes
and the format parameter has value wave — not wav — yet the handler rejects
it, because format=wav occurs as a substring of format=wave. -/
def c7qs : String := "pitch=1&speaker=a&speed=1&text=x&volume=1&format=wave"

/-- The C8 witness request: the three identity gates pass but the query
string is missing the required pitch parameter marker. -/
def c8req : Request := ⟨"1.2.3.4", "AwesomeTTS/1.9.9", "GET", "speaker=a"⟩

/-- A caller is absent from a dict exactly when no entry carries its key. -/
theorem findRec_eq_none_iff (l : List (String × CallRecord)) (addr : String) :
    findRec l addr = none ↔ ∀ p ∈ l, p.1 ≠ addr := by
  induction l with
  | nil => simp [findRec]
  | cons q rest ih =>
    by_cases hq : q.1 = addr
    · simp [findRec, hq]
    · simp [findRec, hq, ih]

/-- Filtering a dict cannot make an absent caller present. -/
theorem findRec_filter_none (p : String × CallRecord → Bool)
    (l : List (String × CallRecord)) (addr : String) (h : findRec l addr = none) :
    findRec (l.filter p) addr = none := by
  rw [findRec_eq_none_iff] at h ⊢
  exact fun q hq => h q (List.mem_of_mem_filter hq)

/-- Appending a record for an absent caller makes exactly that record the
result of looking the caller up. -/
theorem findRec_append_one (l : List (String × CallRecord)) (addr : String)
    (r : CallRecord) (h : findRec l addr = none) :
    findRec (l ++ [(addr, r)]) addr = some r := by
  induction l with
  | nil => simp [findRec]
  | cons q rest ih =>
    rw [findRec_eq_none_iff] at h
    have hq : ¬ q.1 = addr := h q (by simp)
    have hrest : findRec rest addr = none := by
      rw [findRec_eq_none_iff]; exact fun x hx => h x (by simp [hx])
    simpa [findRec, hq] using ih hrest

/-- Incrementing the entries of a caller that is absent changes nothing. -/
theorem map_bump_of_none (addr : String) (l : List (String × CallRecord))
    (h : findRec l addr = none) : l.map (bump addr) = l := by
  rw [findRec_eq_none_iff] at h
  have : ∀ p ∈ l, bump addr p = id p := by
    intro p hp; simp [bump, h p hp]
  rw [List.map_congr_left this, List.map_id]

/-- If every level passes its check, the check loop passes. -/
theorem checkLevels_eq_none (addr : String) (ls : List LimitLevel)
    (h : ∀ lv ∈ ls, checkLevel lv addr = none) :
    checkLevels ls addr = none := by
  induction ls with
  | nil => rfl
  | cons lv rest ih =>
    have h1 := h lv (by simp)
    have h2 := ih (fun x hx => h x (by simp [hx]))
    simp [checkLevels, h1, h2]

/-- Conversely, a passing check loop means every level passed its check. -/
theorem checkLevels_none_forall (addr : String) (ls : List LimitLevel)
    (h : checkLevels ls addr = none) :
    ∀ lv ∈ ls, checkLevel lv addr = none := by
  induction ls with
  | nil => simp
  | cons lv rest ih =>
    intro x hx
    rcases hc : checkLevel lv addr with _ | f
    · rw [checkLevels, hc] at h
      rcases List.mem_cons.mp hx with rfl | hx2
      · exact hc
      · exact ih h x hx2
    · rw [checkLevels, hc] at h; exact absurd h (by simp)

/-- If every level either passes or fails with the same reason `f`, and some
level fails, the check loop reports `f`. -/
theorem checkLevels_eq_some (addr : String) (f : CheckFail) (ls : List LimitLevel)
    (hall : ∀ lv ∈ ls, checkLevel lv addr = none ∨ checkLevel lv addr = some f)
    (hex : ∃ lv ∈ ls, checkLevel lv addr = some f) :
    checkLevels ls addr = some f := by
  induction ls with
  | nil => simp at hex
  | cons lv rest ih =>
    rcases hall lv (by simp) with h1 | h1
    · have hex2 : ∃ x ∈ rest, checkLevel x addr = some f := by
        rcases hex with ⟨x, hx, hfx⟩
        rcases List.mem_cons.mp hx with rfl | hx2
        · rw [h1] at hfx; exact absurd hfx (by simp)
        · exact ⟨x, hx2, hfx⟩
      have h2 := ih (fun x hx => hall x (by simp [hx])) hex2
      simp [checkLevels, h1, h2]
    · simp [checkLevels, h1]

/-- Sweeping is idempotent: a second sweep at the same time removes
nothing. -/
theorem sweep_sweep (now : Int) (lv : LimitLevel) :
    sweep now (sweep now lv) = sweep now lv := by
  cases lv with
  | mk w ms mt lk =>
    simp only [sweep, List.filter_filter]
    congr 1
    apply List.filter_congr
    intro p _
    cases h : decide (p.2.created < now - w) <;> simp

/-- The sweep keeps every field of the level except the dict. -/
theorem sweep_fields (now : Int) (lv : LimitLevel) :
    (sweep now lv).within = lv.within ∧ (sweep now lv).max_single = lv.max_single ∧
      (sweep now lv).max_total = lv.max_total := by
  exact ⟨rfl, rfl, rfl⟩

/-- A record created at the current time survives the sweep of a level with a
nonnegative window, so the mid-run state is stable under sweeping. -/
theorem sweep_midLevel (now : Int) (addr : String) (k : Nat) (lv : LimitLevel)
    (hw : 0 ≤ lv.within) :
    sweep now (midLevel now addr k lv) = midLevel now addr k lv := by
  cases lv with
  | mk w ms mt lk =>
    simp only [midLevel, sweep, List.filter_append, List.filter_filter]
    have hkeep : ¬ (now < now - w) := by simp only [LimitLevel.within] at hw; omega
    have e1 : List.filter
        (fun a => ! decide (a.2.created < now - w) && ! decide (a.2.created < now - w)) lk =
        List.filter (fun p => ! decide (p.2.created < now - w)) lk := by
      apply List.filter_congr
      intro p _
      cases h : decide (p.2.created < now - w) <;> simp
    rw [e1]
    simp [hkeep]

/-- Looking up the fresh caller in the mid-run dict finds the record of the
current run. -/
theorem findRec_midLevel (now : Int) (addr : String) (k : Nat) (lv : LimitLevel)
    (h : findRec lv.lookup addr = none) :
    findRec (midLevel now addr k lv).lookup addr = some ⟨now, k⟩ := by
  have h2 : findRec (sweep now lv).lookup addr = none :=
    findRec_filter_none _ _ _ h
  exact findRec_append_one _ _ _ h2

/-- Committing for the fresh caller on the mid-run state increments exactly
its record. -/
theorem commitLevel_midLevel (now : Int) (addr : String) (k : Nat) (lv : LimitLevel)
    (h : findRec lv.lookup addr = none) :
    commitLevel now addr (midLevel now addr k lv) = midLevel now addr (k + 1) lv := by
  have hf := findRec_midLevel now addr k lv h
  have h2 : findRec (sweep now lv).lookup addr = none :=
    findRec_filter_none _ _ _ h
  simp only [midLevel] at hf ⊢
  cases lv with
  | mk w ms mt lk =>
    simp only [commitLevel, hf]
    congr 1
    rw [List.map_append, map_bump_of_none _ _ h2]
    simp [bump]

/-- Committing for a fresh caller on the swept state appends the initial
record: the state after the first admitted call is the mid-run state with
counter one. -/
theorem commitLevel_sweep (now : Int) (addr : String) (lv : LimitLevel)
    (h : findRec lv.lookup addr = none) :
    commitLevel now addr (sweep now lv) = midLevel now addr 1 lv := by
  have h2 : findRec (sweep now lv).lookup addr = none :=
    findRec_filter_none _ _ _ h
  simp only [midLevel]
  cases lv with
  | mk w ms mt lk =>
    simp only [commitLevel, h2]
    rfl


/-- Inversion: a rejected critical section leaves exactly the swept state. -/
theorem admitReq_rejected_state (now : Int) (addr : String) (levels ls : List LimitLevel)
    (f : CheckFail) (h : admitReq now addr levels = .rejected f ls) :
    ls = levels.map (sweep now) ∧
      checkLevels (levels.map (sweep now)) addr = some f := by
  unfold admitReq at h
  rcases hc : checkLevels (levels.map (sweep now)) addr with _ | f2
  · rw [hc] at h; exact absurd h (by simp)
  · rw [hc] at h
    injection h with h1 h2
    exact ⟨h2.symm, by rw [h1]⟩

/-- Inversion: an admitted critical section passed every check and committed
on the swept state. -/
theorem admitReq_admitted_state (now : Int) (addr : String) (levels ls : List LimitLevel)
    (h : admitReq now addr levels = .admitted ls) :
    ls = (levels.map (sweep now)).map (commitLevel now addr) ∧
      checkLevels (levels.map (sweep now)) addr = none := by
  unfold admitReq at h
  rcases hc : checkLevels (levels.map (sweep now)) addr with _ | f2
  · rw [hc] at h; injection h with h1; exact ⟨h1.symm, rfl⟩
  · rw [hc] at h; exact absurd h (by simp)

/-- The first call of a fresh caller, with room at every level, is admitted
and produces the mid-run state with counter one. -/
theorem admitReq_fresh (now : Int) (addr : String) (levels : List LimitLevel)
    (hfresh : ∀ lv ∈ levels, findRec lv.lookup addr = none)
    (hcap : ∀ lv ∈ levels, (sweep now lv).lookup.length < lv.max_total) :
    admitReq now addr levels = .admitted (midState now addr 1 levels) := by
  have hchk : checkLevels (levels.map (sweep now)) addr = none := by
    apply checkLevels_eq_none
    intro lv2 hlv2
    rcases List.mem_map.mp hlv2 with ⟨lv, hlv, rfl⟩
    have hfr : findRec (sweep now lv).lookup addr = none :=
      findRec_filter_none _ _ _ (hfresh lv hlv)
    have hlen := hcap lv hlv
    have hmt : (sweep now lv).max_total = lv.max_total := rfl
    simp only [checkLevel, hfr]
    have hno : ¬ ((sweep now lv).lookup.length ≥ (sweep now lv).max_total) := by
      rw [hmt]; omega
    simp [hno]
  unfold admitReq
  rw [hchk]
  have hcommit : (levels.map (sweep now)).map (commitLevel now addr) =
      midState now addr 1 levels := by
    rw [List.map_map, midState]
    exact List.map_congr_left (fun lv hlv => commitLevel_sweep now addr lv (hfresh lv hlv))
  rw [hcommit]

/-- A later call of the caller while every level still has head room: the
call is admitted and every counter advances by one. -/
theorem admitReq_mid_ok (now : Int) (addr : String) (levels : List LimitLevel) (k : Nat)
    (hw : ∀ lv ∈ levels, 0 ≤ lv.within)
    (hfresh : ∀ lv ∈ levels, findRec lv.lookup addr = none)
    (hk : ∀ lv ∈ levels, k < lv.max_single) :
    admitReq now addr (midState now addr k levels) =
      .admitted (midState now addr (k + 1) levels) := by
  have hswept : (midState now addr k levels).map (sweep now) = midState now addr k levels := by
    simp only [midState, List.map_map]
    exact List.map_congr_left
      (fun lv hlv => sweep_midLevel now addr k lv (hw lv hlv))
  have hchk : checkLevels (midState now addr k levels) addr = none := by
    apply checkLevels_eq_none
    intro lv2 hlv2
    rcases List.mem_map.mp hlv2 with ⟨lv, hlv, rfl⟩
    have hf := findRec_midLevel now addr k lv (hfresh lv hlv)
    have hms : (midLevel now addr k lv).max_single = lv.max_single := rfl
    simp only [checkLevel, hf]
    have hlt := hk lv hlv
    have hno : ¬ (k ≥ (midLevel now addr k lv).max_single) := by
      rw [hms]; omega
    simp [hno]
  have hcommit : (midState now addr k levels).map (commitLevel now addr) =
      midState now addr (k + 1) levels := by
    simp only [midState, List.map_map, Function.comp]
    exact List.map_congr_left
      (fun lv hlv => commitLevel_midLevel now addr k lv (hfresh lv hlv))
  unfold admitReq
  rw [hswept, hchk, hcommit]

/-- A later call of the caller when some level has exhausted its per-caller
cap: the call is rejected with the too-many outcome and the state does not
change. -/
theorem admitReq_mid_reject (now : Int) (addr : String) (levels : List LimitLevel) (k : Nat)
    (hw : ∀ lv ∈ levels, 0 ≤ lv.within)
    (hfresh : ∀ lv ∈ levels, findRec lv.lookup addr = none)
    (hex : ∃ lv ∈ levels, lv.max_single ≤ k) :
    admitReq now addr (midState now addr k levels) =
      .rejected .tooMany (midState now addr k levels) := by
  have hswept : (midState now addr k levels).map (sweep now) = midState now addr k levels := by
    simp only [midState, List.map_map]
    exact List.map_congr_left
      (fun lv hlv => sweep_midLevel now addr k lv (hw lv hlv))
  have hchk : checkLevels (midState now addr k levels) addr = some .tooMany := by
    apply checkLevels_eq_some
    · intro lv2 hlv2
      rcases List.mem_map.mp hlv2 with ⟨lv, hlv, rfl⟩
      have hf := findRec_midLevel now addr k lv (hfresh lv hlv)
      simp only [checkLevel, hf]
      by_cases hge : k ≥ (midLevel now addr k lv).max_single
      · right; simp [hge]
      · left; simp [hge]
    · rcases hex with ⟨lv, hlv, hle⟩
      refine ⟨midLevel now addr k lv, List.mem_map_of_mem _ hlv, ?_⟩
      have hf := findRec_midLevel now addr k lv (hfresh lv hlv)
      have hms : (midLevel now addr k lv).max_single = lv.max_single := rfl
      simp only [checkLevel, hf]
      have hge : k ≥ (midLevel now addr k lv).max_single := by rw [hms]; omega
      simp [hge]
  unfold admitReq
  rw [hswept, hchk]

/-- A request that passes all four validation gates and is admitted by the
rate limiter is answered by the upstream-derived response, with the
committed state. -/
theorem voicetext_admitted (req : Request) (now : Int) (u : UpstreamResult)
    (levels ls : List LimitLevel)
    (h1 : req.remote_addr ≠ "") (h2 : startsWithB "AwesomeTTS/" req.http_user_agent = true)
    (h3 : req.request_method = "GET") (h4 : queryOk req.query_string = true)
    (hadm : admitReq now req.remote_addr levels = .admitted ls) :
    voicetext req now u levels = (processUpstream u, ls) := by
  have e1 : (req.remote_addr == "") = false := beq_eq_false_iff_ne.mpr h1
  have e3 : (req.request_method == "GET") = true := beq_iff_eq.mpr h3
  simp [voicetext, e1, h2, e3, h4, hadm]

/-- A request that passes all four validation gates and is rejected with the
capacity outcome is answered 503 with the over-capacity message, on the
post-sweep state. -/
theorem voicetext_capacity (req : Request) (now : Int) (u : UpstreamResult)
    (levels ls : List LimitLevel)
    (h1 : req.remote_addr ≠ "") (h2 : startsWithB "AwesomeTTS/" req.http_user_agent = true)
    (h3 : req.request_method = "GET") (h4 : queryOk req.query_string = true)
    (hadm : admitReq now req.remote_addr levels = .rejected .capacity ls) :
    voicetext req now u levels = (⟨CODE_503, HEADERS_JSON, MSG_CAPACITY⟩, ls) := by
  have e1 : (req.remote_addr == "") = false := beq_eq_false_iff_ne.mpr h1
  have e3 : (req.request_method == "GET") = true := beq_iff_eq.mpr h3
  simp [voicetext, e1, h2, e3, h4, hadm]

/-- A request that passes all four validation gates and is rejected with the
too-many outcome is answered 429 with the too-many-calls message, on the
post-sweep state. -/
theorem voicetext_tooMany (req : Request) (now : Int) (u : UpstreamResult)
    (levels ls : List LimitLevel)
    (h1 : req.remote_addr ≠ "") (h2 : startsWithB "AwesomeTTS/" req.http_user_agent = true)
    (h3 : req.request_method = "GET") (h4 : queryOk req.query_string = true)
    (hadm : admitReq now req.remote_addr levels = .rejected .tooMany ls) :
    voicetext req now u levels = (⟨CODE_429, HEADERS_JSON, MSG_TOO_MANY⟩, ls) := by
  have e1 : (req.remote_addr == "") = false := beq_eq_false_iff_ne.mpr h1
  have e3 : (req.request_method == "GET") = true := beq_iff_eq.mpr h3
  simp [voicetext, e1, h2, e3, h4, hadm]

/-- The tail of the over-quota run of claim C1: starting from the mid-run
state with counter `k ≥ 1`, when the tightest per-caller cap over all levels
is `k + j`, the next `j` calls are admitted and the following call is
rejected 429, leaving the state of the last admitted call. -/
theorem runRelay_mid (req : Request) (now : Int) (u : UpstreamResult)
    (levels : List LimitLevel) (M : Nat)
    (h1 : req.remote_addr ≠ "") (h2 : startsWithB "AwesomeTTS/" req.http_user_agent = true)
    (h3 : req.request_method = "GET") (h4 : queryOk req.query_string = true)
    (hw : ∀ lv ∈ levels, 0 ≤ lv.within)
    (hfresh : ∀ lv ∈ levels, findRec lv.lookup req.remote_addr = none)
    (htl : ∃ lv ∈ levels, lv.max_single = M)
    (hmin : ∀ lv ∈ levels, M ≤ lv.max_single) :
    ∀ j k, 1 ≤ k → k + j = M →
    runRelay req now u (j + 1) (midState now req.remote_addr k levels) =
      (List.replicate j (processUpstream u) ++ [⟨CODE_429, HEADERS_JSON, MSG_TOO_MANY⟩],
        midState now req.remote_addr M levels) := by
  intro j
  induction j with
  | zero =>
    intro k hk1 hkM
    have hex : ∃ lv ∈ levels, lv.max_single ≤ k := by
      rcases htl with ⟨lv, hlv, hms⟩
      exact ⟨lv, hlv, by omega⟩
    have hstep := admitReq_mid_reject now req.remote_addr levels k hw hfresh hex
    have hv := voicetext_tooMany req now u _ _ h1 h2 h3 h4 hstep
    have hkM2 : k = M := by omega
    subst hkM2
    simp [runRelay, hv]
  | succ j ih =>
    intro k hk1 hkM
    have hklt : ∀ lv ∈ levels, k < lv.max_single := by
      intro lv hlv
      have := hmin lv hlv
      omega
    have hstep := admitReq_mid_ok now req.remote_addr levels k hw hfresh hklt
    have hv := voicetext_admitted req now u _ _ h1 h2 h3 h4 hstep
    have hrec := ih (k + 1) (by omega) (by omega)
    rw [List.replicate_succ]
    show runRelay req now u (j + 1 + 1) (midState now req.remote_addr k levels) = _
    rw [runRelay]
    simp only [hv, hrec]
    rfl

/-- The full over-quota run of claim C1: a fresh caller, every level with
room for a new caller, the tightest per-caller cap `M ≥ 1`; the first `M`
calls are admitted (each answered by the upstream-derived response) and call
`M + 1` is rejected 429 with the too-many-calls message, with no commit for
the rejected call. -/
theorem runRelay_over_quota (req : Request) (now : Int) (u : UpstreamResult)
    (levels : List LimitLevel) (M : Nat)
    (h1 : req.remote_addr ≠ "") (h2 : startsWithB "AwesomeTTS/" req.http_user_agent = true)
    (h3 : req.request_method = "GET") (h4 : queryOk req.query_string = true)
    (hM : 1 ≤ M)
    (hw : ∀ lv ∈ levels, 0 ≤ lv.within)
    (hfresh : ∀ lv ∈ levels, findRec lv.lookup req.remote_addr = none)
    (hcap : ∀ lv ∈ levels, (sweep now lv).lookup.length < lv.max_total)
    (htl : ∃ lv ∈ levels, lv.max_single = M)
    (hmin : ∀ lv ∈ levels, M ≤ lv.max_single) :
    runRelay req now u (M + 1) levels =
      (List.replicate M (processUpstream u) ++ [⟨CODE_429, HEADERS_JSON, MSG_TOO_MANY⟩],
        midState now req.remote_addr M levels) := by
  obtain ⟨M2, rfl⟩ : ∃ M2, M = M2 + 1 := ⟨M - 1, by omega⟩
  have hstep := admitReq_fresh now req.remote_addr levels hfresh hcap
  have hv := voicetext_admitted req now u _ _ h1 h2 h3 h4 hstep
  have hrec := runRelay_mid req now u levels (M2 + 1) h1 h2 h3 h4 hw hfresh htl hmin
    M2 1 (by omega) (by omega)
  rw [List.replicate_succ]
  show runRelay req now u (M2 + 1 + 1) levels = _
  rw [runRelay]
  simp only [hv, hrec]
  rfl

/-- Claim C1, counterexample: with a per-caller cap of zero the claim as
stated predicts that the very first call — the (M+1)st with M = 0 — is
rejected 429 with no commit; but the handler admits it and commits, because
a caller without a record is only checked against the capacity cap, never
against max_single. -/
theorem c1_cap_zero_counterexample :
    (runRelay validReq 0 upAudio (0 + 1) [⟨60, 0, 5, []⟩]).1 =
        [⟨CODE_200, [("Content-Type", "audio/wav")], ["RIFFdata"]⟩] ∧
      (runRelay validReq 0 upAudio (0 + 1) [⟨60, 0, 5, []⟩]).1 ≠
        [⟨CODE_429, HEADERS_JSON, MSG_TOO_MANY⟩] ∧
      (runRelay validReq 0 upAudio (0 + 1) [⟨60, 0, 5, []⟩]).2 =
        [⟨60, 0, 5, [("1.2.3.4", ⟨0, 1⟩)]⟩] := by
  decide

/-- Claim C1 (amended: the per-caller cap M must be at least one — for
M = 0 the first call is still admitted and committed, see the
counterexample). For every level configuration whose tightest per-caller
cap is M, a fresh validated caller with room for a new caller at every
level, making M + 1 calls within one window (a fixed time, so no record
expires in between): the first M calls are admitted and answered from the
upstream outcome, and the (M+1)st call is rejected 429 with the
too-many-calls message, with no commit performed for the rejected call —
the final state is exactly the mid-run state of the M admitted calls, every
counter reading M. -/
theorem c1_per_caller_cap (req : Request) (now : Int) (u : UpstreamResult)
    (levels : List LimitLevel) (M : Nat)
    (h1 : req.remote_addr ≠ "") (h2 : startsWithB "AwesomeTTS/" req.http_user_agent = true)
    (h3 : req.request_method = "GET") (h4 : queryOk req.query_string = true)
    (hM : 1 ≤ M)
    (hw : ∀ lv ∈ levels, 0 ≤ lv.within)
    (hfresh : ∀ lv ∈ levels, findRec lv.lookup req.remote_addr = none)
    (hcap : ∀ lv ∈ levels, (sweep now lv).lookup.length < lv.max_total)
    (htl : ∃ lv ∈ levels, lv.max_single = M)
    (hmin : ∀ lv ∈ levels, M ≤ lv.max_single) :
    runRelay req now u (M + 1) levels =
      (List.replicate M (processUpstream u) ++ [⟨CODE_429, HEADERS_JSON, MSG_TOO_MANY⟩],
        midState now req.remote_addr M levels) :=
  runRelay_over_quota req now u levels M h1 h2 h3 h4 hM hw hfresh hcap htl hmin

/-- Claim C1 witness: cap one on the short level and two on the long one, a
fresh caller; the first call is admitted and the second is rejected 429. -/
theorem c1_per_caller_cap_witness :
    runRelay validReq 0 upAudio (1 + 1) c1Levels =
      (List.replicate 1 (processUpstream upAudio) ++ [⟨CODE_429, HEADERS_JSON, MSG_TOO_MANY⟩],
        midState 0 validReq.remote_addr 1 c1Levels) :=
  c1_per_caller_cap validReq 0 upAudio c1Levels 1 (by decide) (by decide) (by decide)
    (by decide) (by decide) (by decide) (by decide) (by decide) (by decide) (by decide)

/-- Claim C2: a validated caller with no record at any level — the (T+1)st
distinct identity — arriving while some level already holds max_total
records within its current window is answered 503 with the over-capacity
message, whatever the call counts of the existing records, and the state
after the attempt is only the swept state (no commit). -/
theorem c2_total_caller_cap (req : Request) (now : Int) (u : UpstreamResult)
    (levels : List LimitLevel)
    (h1 : req.remote_addr ≠ "") (h2 : startsWithB "AwesomeTTS/" req.http_user_agent = true)
    (h3 : req.request_method = "GET") (h4 : queryOk req.query_string = true)
    (hfresh : ∀ lv ∈ levels, findRec lv.lookup req.remote_addr = none)
    (hover : ∃ lv ∈ levels, lv.max_total ≤ (sweep now lv).lookup.length) :
    voicetext req now u levels =
      (⟨CODE_503, HEADERS_JSON, MSG_CAPACITY⟩, levels.map (sweep now)) := by
  have hchk : checkLevels (levels.map (sweep now)) req.remote_addr = some .capacity := by
    apply checkLevels_eq_some
    · intro lv2 hlv2
      rcases List.mem_map.mp hlv2 with ⟨lv, hlv, rfl⟩
      have hfr : findRec (sweep now lv).lookup req.remote_addr = none :=
        findRec_filter_none _ _ _ (hfresh lv hlv)
      simp only [checkLevel, hfr]
      by_cases hge : (sweep now lv).lookup.length ≥ (sweep now lv).max_total
      · right; simp [hge]
      · left; simp [hge]
    · rcases hover with ⟨lv, hlv, hle⟩
      refine ⟨sweep now lv, List.mem_map_of_mem _ hlv, ?_⟩
      have hfr : findRec (sweep now lv).lookup req.remote_addr = none :=
        findRec_filter_none _ _ _ (hfresh lv hlv)
      have hmt : (sweep now lv).max_total = lv.max_total := rfl
      simp only [checkLevel, hfr]
      have hge : (sweep now lv).lookup.length ≥ (sweep now lv).max_total := by
        rw [hmt]; omega
      simp [hge]
  have hadm : admitReq now req.remote_addr levels =
      .rejected .capacity (levels.map (sweep now)) := by
    unfold admitReq; rw [hchk]
  exact voicetext_capacity req now u levels _ h1 h2 h3 h4 hadm

/-- Claim C2 witness: one level with a cap of two distinct callers, both
slots taken by other addresses; a fresh caller is answered 503. -/
theorem c2_total_caller_cap_witness :
    voicetext validReq 5 upAudio c2Levels =
      (⟨CODE_503, HEADERS_JSON, MSG_CAPACITY⟩, c2Levels.map (sweep 5)) :=
  c2_total_caller_cap validReq 5 upAudio c2Levels (by decide) (by decide) (by decide)
    (by decide) (by decide) (by decide)

/-- Claim C3: an admission attempt rejected by any level — capacity or
too-many — mutates no level beyond the expiry sweep: every level keeps its
configuration and its post-attempt dict is a sublist of its prior dict, so
every surviving record (in particular every record of a level that passed
its own check) is exactly the prior record: no record is created and no
counter is incremented anywhere. -/
theorem c3_reject_no_commit (now : Int) (addr : String)
    (levels ls : List LimitLevel) (f : CheckFail)
    (h : admitReq now addr levels = .rejected f ls) :
    List.Forall₂ (fun lv2 lv => lv2.within = lv.within ∧ lv2.max_single = lv.max_single ∧
      lv2.max_total = lv.max_total ∧ lv2.lookup.Sublist lv.lookup) ls levels := by
  obtain ⟨rfl, -⟩ := admitReq_rejected_state now addr levels ls f h
  rw [List.forall₂_map_left_iff, List.forall₂_same]
  intro lv hlv
  exact ⟨rfl, rfl, rfl, List.filter_sublist _⟩

/-- Claim C3 witness: a too-many rejection on a single-level state leaves
the state a sublist of itself with configuration intact. -/
theorem c3_reject_no_commit_witness :
    List.Forall₂ (fun lv2 lv => lv2.within = lv.within ∧ lv2.max_single = lv.max_single ∧
      lv2.max_total = lv.max_total ∧ lv2.lookup.Sublist lv.lookup) c3Levels c3Levels :=
  c3_reject_no_commit 0 "1.2.3.4" c3Levels c3Levels .tooMany (by decide)

/-- Claim C4, counterexample: the claim fails at the window boundary. With
window 60 and a record created at time 0, at now = 60 the age of the record
equals the window, so by the claim the record is no longer valid (60 < 60
fails), must be removed during the admission check and never used to
reject; but the sweep removes only records with created strictly below
now minus within, so the record survives and rejects the caller 429. -/
theorem c4_expiry_boundary_counterexample :
    admitReq 60 "1.2.3.4" [⟨60, 1, 5, [("1.2.3.4", ⟨0, 1⟩)]⟩] =
        .rejected .tooMany [⟨60, 1, 5, [("1.2.3.4", ⟨0, 1⟩)]⟩] ∧
      ¬ ((60 : Int) - 0 < 60) := by
  decide

/-- Claim C4 (amended: a record is valid while now - created_at ≤
window_seconds, not strictly below; it is removed exactly when created_at <
now - window_seconds). The sweep of every admission check keeps exactly the
records whose age is at most the window — removal, never decrement — so a
record strictly older than the window is never seen by the check or commit
phases; and, as in the claim example, with window 60 and cap one a caller
first seen at time 0 is admitted again at time 61, its expired record being
replaced by a fresh one rather than used to reject. -/
theorem c4_expiry_sweep :
    (∀ (now : Int) (lv : LimitLevel),
      (sweep now lv).lookup =
        lv.lookup.filter (fun p => decide (now - p.2.created ≤ lv.within))) ∧
    admitReq 61 "1.2.3.4" [⟨60, 1, 5, [("1.2.3.4", ⟨0, 1⟩)]⟩] =
      .admitted [⟨60, 1, 5, [("1.2.3.4", ⟨61, 1⟩)]⟩] := by
  constructor
  · intro now lv
    simp only [sweep]
    apply List.filter_congr
    intro p _
    by_cases h : p.2.created < now - lv.within
    · have h2 : ¬ (now - p.2.created ≤ lv.within) := by omega
      simp [h, h2]
    · have h2 : now - p.2.created ≤ lv.within := by omega
      simp [h, h2]
  · decide

/-- Claim C5: for every validated and admitted request, any upstream
failure — a raised exception (timeout, connection error), a non-200 status,
or a content type not beginning with audio/ (a JSON error body included) —
is answered 502 with the single generic upstream-unavailable JSON message.
The response is one constant for every failure, so no upstream failure
detail can reach the caller; the model passes the outcome of the single
outbound attempt, so no retry is performed. -/
theorem c5_upstream_failure (req : Request) (now : Int) (u : UpstreamResult)
    (levels ls : List LimitLevel)
    (h1 : req.remote_addr ≠ "") (h2 : startsWithB "AwesomeTTS/" req.http_user_agent = true)
    (h3 : req.request_method = "GET") (h4 : queryOk req.query_string = true)
    (hadm : admitReq now req.remote_addr levels = .admitted ls)
    (hfail : upstreamFailed u = true) :
    (voicetext req now u levels).1 = ⟨CODE_502, HEADERS_JSON, MSG_UPSTREAM⟩ := by
  rw [voicetext_admitted req now u levels ls h1 h2 h3 h4 hadm]
  rcases u with resp | d
  · simp only [upstreamFailed, Bool.or_eq_true, decide_eq_true_eq,
      Bool.not_eq_true'] at hfail
    rcases hfail with hc | hm
    · simp [processUpstream, hc]
    · by_cases hc : resp.code = 200 <;> simp [processUpstream, hc, hm]
  · rfl

/-- Claim C5 witness: a timeout on an admitted first call of the production
configuration is answered 502 with the generic message. -/
theorem c5_upstream_failure_witness :
    (voicetext validReq 0 upTimeout limit_levels).1 =
      ⟨CODE_502, HEADERS_JSON, MSG_UPSTREAM⟩ :=
  c5_upstream_failure validReq 0 upTimeout limit_levels committedLevels (by decide)
    (by decide) (by decide) (by decide) (by decide) (by decide)

/-- Claim C6: for every validated and admitted request whose upstream call
returns status exactly 200 with a content type beginning with audio/, the
relay answers 200 with a content-type header equal to the reported upstream
type and a body that is exactly the upstream body — nothing is transcoded
or re-encoded. -/
theorem c6_upstream_success (req : Request) (now : Int) (resp : UpstreamResponse)
    (levels ls : List LimitLevel)
    (h1 : req.remote_addr ≠ "") (h2 : startsWithB "AwesomeTTS/" req.http_user_agent = true)
    (h3 : req.request_method = "GET") (h4 : queryOk req.query_string = true)
    (hadm : admitReq now req.remote_addr levels = .admitted ls)
    (hcode : resp.code = 200) (hmime : startsWithB "audio/" resp.mime = true) :
    voicetext req now (.ok resp) levels =
      (⟨CODE_200, [("Content-Type", resp.mime)], [resp.body]⟩, ls) := by
  rw [voicetext_admitted req now (.ok resp) levels ls h1 h2 h3 h4 hadm]
  simp [processUpstream, hcode, hmime]

/-- Claim C6 witness: an audio/wav 200 upstream response to an admitted
first call is relayed verbatim. -/
theorem c6_upstream_success_witness :
    voicetext validReq 0 (.ok respAudio) limit_levels =
      (⟨CODE_200, [("Content-Type", respAudio.mime)], [respAudio.body]⟩, committedLevels) :=
  c6_upstream_success validReq 0 respAudio limit_levels committedLevels (by decide)
    (by decide) (by decide) (by decide) (by decide) (by decide) (by decide)

/-- Claim C7, counterexample: a query string passing every other structural
check whose format parameter has the value wave — which is not wav — is
nonetheless rejected by validation, because the handler tests the substring
format=wav, which occurs inside format=wave. -/
theorem c7_format_value_counterexample :
    otherStructuralOk c7qs = true ∧ specFormatParamOk c7qs = true ∧
      queryOk c7qs = false := by
  decide

/-- Claim C7 (amended: the test is on substrings, not on a parsed parameter
value — a value merely beginning with wav, such as wave, is also rejected,
see the counterexample): for every query string satisfying the other
structural checks, validation accepts it exactly when it contains format=
as a substring and does not contain format=wav as a substring. -/
theorem c7_format_substring_check (data : String) (h : otherStructuralOk data = true) :
    queryOk data = true ↔
      (substrB "format=" data = true ∧ substrB "format=wav" data = false) := by
  simp only [queryOk, otherStructuralOk, Bool.and_eq_true, Bool.not_eq_true'] at h ⊢
  tauto

/-- Claim C7 witness: a fully well-formed query string with format value aac
is accepted, matching the substring condition. -/
theorem c7_format_substring_check_witness :
    queryOk validQS = true ↔
      (substrB "format=" validQS = true ∧ substrB "format=wav" validQS = false) :=
  c7_format_substring_check validQS (by decide)

/-- Claim C8: a request passing the address, user-agent and method gates
whose query string is missing any of the five required parameter markers,
or contains format=wav, is answered 400 with the unacceptable message
before the rate limiter is consulted: the returned state is exactly the
input state — no record created, no counter incremented, no record
removed. -/
theorem c8_malformed_no_mutation (req : Request) (now : Int) (u : UpstreamResult)
    (levels : List LimitLevel)
    (h1 : req.remote_addr ≠ "") (h2 : startsWithB "AwesomeTTS/" req.http_user_agent = true)
    (h3 : req.request_method = "GET")
    (hq : substrB "pitch=" req.query_string = false ∨
          substrB "speaker=" req.query_string = false ∨
          substrB "speed=" req.query_string = false ∨
          substrB "text=" req.query_string = false ∨
          substrB "volume=" req.query_string = false ∨
          substrB "format=wav" req.query_string = true) :
    voicetext req now u levels = (⟨CODE_400, HEADERS_JSON, MSG_UNACCEPTABLE⟩, levels) := by
  have e1 : (req.remote_addr == "") = false := beq_eq_false_iff_ne.mpr h1
  have e3 : (req.request_method == "GET") = true := beq_iff_eq.mpr h3
  have hqf : queryOk req.query_string = false := by
    rcases hq with h | h | h | h | h | h <;> simp [queryOk, h]
  simp [voicetext, e1, h2, e3, hqf]

/-- Claim C8 witness: a query string missing pitch= is answered 400 and the
production state is returned untouched. -/
theorem c8_malformed_no_mutation_witness :
    voicetext c8req 0 upAudio limit_levels =
      (⟨CODE_400, HEADERS_JSON, MSG_UNACCEPTABLE⟩, limit_levels) :=
  c8_malformed_no_mutation c8req 0 upAudio limit_levels (by decide) (by decide)
    (by decide) (Or.inl (by decide))

/-- The sweep preserves the capacity invariant: filtering only shrinks. -/
theorem capInv_sweep (now : Int) (levels : List LimitLevel) (h : capInv levels) :
    capInv (levels.map (sweep now)) := by
  intro lv2 hlv2
  rcases List.mem_map.mp hlv2 with ⟨lv, hlv, rfl⟩
  have hle : (sweep now lv).lookup.length ≤ lv.lookup.length :=
    List.length_filter_le _ _
  have h2 := h lv hlv
  have hmt : (sweep now lv).max_total = lv.max_total := rfl
  rw [hmt]; omega

/-- The commit preserves the capacity invariant when every check passed: a
new record is only appended on a level whose check confirmed strict room,
and a known caller is incremented without changing the entry count. -/
theorem capInv_commit (now : Int) (addr : String) (levels : List LimitLevel)
    (h : capInv levels)
    (hchk : checkLevels (levels.map (sweep now)) addr = none) :
    capInv ((levels.map (sweep now)).map (commitLevel now addr)) := by
  have hsw := capInv_sweep now levels h
  intro lv2 hlv2
  rcases List.mem_map.mp hlv2 with ⟨lv1, hlv1, rfl⟩
  have hchk1 := checkLevels_none_forall addr _ hchk lv1 hlv1
  have hcap1 := hsw lv1 hlv1
  rcases hf : findRec lv1.lookup addr with _ | r
  · simp only [checkLevel, hf] at hchk1
    have hlt : lv1.lookup.length < lv1.max_total := by
      by_contra hge
      simp [Nat.le_of_not_lt hge] at hchk1
    simp only [commitLevel, hf]
    have hlen : (lv1.lookup ++ [(addr, (⟨now, 1⟩ : CallRecord))]).length =
        lv1.lookup.length + 1 := by simp
    show (lv1.lookup ++ [(addr, (⟨now, 1⟩ : CallRecord))]).length ≤ lv1.max_total
    omega
  · simp only [commitLevel, hf]
    show (lv1.lookup.map (bump addr)).length ≤ lv1.max_total
    rw [List.length_map]
    exact hcap1

/-- One handler call preserves the capacity invariant, whatever the request
and upstream outcome. -/
theorem capInv_voicetext (req : Request) (now : Int) (u : UpstreamResult)
    (levels : List LimitLevel) (h : capInv levels) :
    capInv (voicetext req now u levels).2 := by
  unfold voicetext
  split
  · exact h
  split
  · exact h
  split
  · exact h
  split
  · exact h
  rcases hadm : admitReq now req.remote_addr levels with ⟨ls⟩ | ⟨f, ls⟩
  · obtain ⟨rfl, hchk⟩ := admitReq_admitted_state now req.remote_addr levels _ hadm
    show capInv ((levels.map (sweep now)).map (commitLevel now req.remote_addr))
    exact capInv_commit now req.remote_addr levels h hchk
  · obtain ⟨rfl, -⟩ := admitReq_rejected_state now req.remote_addr levels _ f hadm
    cases f
    · show capInv (levels.map (sweep now))
      exact capInv_sweep now levels h
    · show capInv (levels.map (sweep now))
      exact capInv_sweep now levels h

/-- Every run of requests preserves the capacity invariant. -/
theorem runSeq_capInv (inputs : List (Request × Int × UpstreamResult))
    (ls : List LimitLevel) (h : capInv ls) : capInv (runSeq inputs ls) := by
  induction inputs generalizing ls with
  | nil => exact h
  | cons x rest ih =>
    rcases x with ⟨req, now, u⟩
    exact ih _ (capInv_voicetext req now u ls h)

/-- Claim C10: starting from the configured initial state (both dicts
empty), after any sequence of requests no level dict ever holds more
entries than the max_total cap of its level — the sweep only removes
entries, the commit for a known caller increments without adding an entry,
and a new record is appended only after the check phase confirmed the entry
count was strictly below the cap. -/
theorem c10_lookup_bounded (inputs : List (Request × Int × UpstreamResult)) :
    capInv (runSeq inputs limit_levels) :=
  runSeq_capInv inputs limit_levels (by
    intro lv hlv
    simp only [limit_levels, List.mem_cons, List.not_mem_nil, or_false] at hlv
    rcases hlv with rfl | rfl <;> simp)
